import Mathlib

/-!
# network_communication-as_a_task.h

A shallow embedding of `boost-development/src/network_communication-as_a_task.h`:
the connection record, the continuation wrapper, the three asynchronous I/O
operations and the self re-arming listener, followed by the properties of the
specification that they satisfy.

Conventions of the embedding.

* A `std::unique_ptr` is an `Option`: `none` is the null pointer. Moving from a handle
  leaves `none` behind. Dereferencing a null pointer is undefined behaviour, and the
  functions that would do so return `none`.
* A `boost::system::error_code` is a natural number, `0` meaning success.
* Every heap allocation of a connection record takes the next address of the
  `io_service`, so that two records are the same object exactly when their `addr` agree.
* What Boost.Asio does (completing an operation, closing a socket) is the environment:
  it appears as arguments of the functions, never as a choice of the model.
* Memory exhaustion and exceptions thrown by user code are not modelled.
-/

namespace NetworkCommunication

/-! ## Data model -/

/-- One `char` of a `std::string`. -/
abbrev byte := Fin 256

/-- A `boost::system::error_code`; `0` is success, anything else an error. -/
abbrev error_code := Nat

/-- The calls this header makes on a `boost::asio::ip::tcp::socket`. -/
inductive socket_call where
  | shutdown_both
  | close
  deriving DecidableEq, Repr

/-- A `boost::asio::ip::tcp::socket`, as far as this header looks at it: whether it is
open, and the calls that were made on it, oldest first. -/
structure socket where
  is_open : Bool
  calls : List socket_call
  deriving DecidableEq, Repr

/-- The call `socket.shutdown(shutdown_both, ec)`: the socket stays as open as it was, and `ec`
receives what the operating system answers (`answer`). -/
def socket.shutdown (s : socket) (answer : error_code) : socket × error_code :=
  ({ s with calls := s.calls ++ [socket_call.shutdown_both] }, answer)

/-- The call `socket.close(ec)`: Boost.Asio releases the descriptor whatever the operating
system answers, so the socket is not open afterwards; `ec` receives the answer. -/
def socket.close (s : socket) (answer : error_code) : socket × error_code :=
  ({ is_open := false, calls := s.calls ++ [socket_call.close] }, answer)

/-- The method `std::string::resize(n)`: keeps the first `n` characters, or pads with `char()`. -/
def resize (d : List byte) (n : Nat) : List byte :=
  d.take n ++ List.replicate (n - d.length) 0

/-- The struct `connection_with_data`: a socket and its buffer. `addr` is the identity of the
heap object. -/
structure connection_with_data where
  addr : Nat
  socket : socket
  data : List byte
  deriving DecidableEq, Repr

/-- The constructor `connection_with_data(executor)`: a socket that is not open yet, an empty
string. -/
def connection_with_data.ctor (addr : Nat) : connection_with_data :=
  { addr := addr, socket := { is_open := false, calls := [] }, data := [] }

/-- The method `connection_with_data::shutdown()`. `shutdown_answer` and `close_answer` are what
the two socket calls would store into the local `ignore`. -/
def connection_with_data.shutdown (c : connection_with_data)
    (shutdown_answer close_answer : error_code) : connection_with_data :=
  if !c.socket.is_open then
    c
  else
    let (s1, _ignore) := c.socket.shutdown shutdown_answer
    let (s2, _ignore) := s1.close close_answer
    { c with socket := s2 }

/-- The destructor `~connection_with_data()`: the state of the record when its body is done. -/
def connection_with_data.dtor (c : connection_with_data)
    (shutdown_answer close_answer : error_code) : connection_with_data :=
  c.shutdown shutdown_answer close_answer

/-- The typedef `connection_ptr`, a `std::unique_ptr<connection_with_data>`. -/
abbrev connection_ptr := Option connection_with_data

/-- A user continuation `T`, called as `task_unwrapped_(std::move(c_), error)`.

It is given the caller's handle as an rvalue and the error, and acts on the user's own state
`σ`. The first component of its result is what it leaves in the caller's handle: a
continuation whose parameter is a `connection_ptr&&` leaves there whatever it did not move
away. -/
abbrev continuation (σ : Type) := connection_ptr → error_code → σ → connection_ptr × σ

/-- The typedef `on_accpet_func_t`, a
`boost::function<void(connection_ptr, const boost::system::error_code&)>` holding `f`.
Its first parameter is taken by value: it is move-constructed from the caller's handle, which
is left null, and what `f` leaves in the parameter is released when the call returns. -/
def on_accpet_func_t {σ : Type} (f : continuation σ) : continuation σ :=
  fun c error s => (none, (f c error s).2)

/-- What is recorded of a run: the accepts handed to the reactor and the invocations of a
user continuation, in the order in which the program performs them. -/
inductive Event where
  | async_accept (target : Nat)
  | invoke (c : connection_ptr) (error : error_code)
  deriving DecidableEq, Repr

/-- The template `task_wrapped_with_connection<T>`. -/
structure task_wrapped_with_connection (σ : Type) where
  c_ : connection_ptr
  task_unwrapped_ : continuation σ

/-- The constructor `task_wrapped_with_connection(connection_ptr&& c, const T& f)`: the wrapper,
and what is left in the caller's `c`. -/
def task_wrapped_with_connection.ctor {σ : Type} (c : connection_ptr) (f : continuation σ) :
    task_wrapped_with_connection σ × connection_ptr :=
  ({ c_ := c, task_unwrapped_ := f }, none)

/-- Modelled from the spec: `detail::make_task_wrapped` is declared in
`deadline_timers-as_a_task.h`, which is not among the sources. The specification says of it
that the indirection "performs no semantic transformation, only dispatch compatibility". -/
def detail.make_task_wrapped {α : Type} (task_unwrapped : α) : α :=
  task_unwrapped

/-- The completion condition of an `async_read` or `async_write`. -/
inductive completion_condition where
  | transfer_all
  | transfer_at_least (minimum : Nat)
  deriving DecidableEq, Repr

/-- The reactor primitive an operation was issued with. -/
inductive primitive where
  | async_write
  | async_read
  deriving DecidableEq, Repr

/-- A `boost::asio::buffer(p, size)`: `p` is null, or points to the first character of the
string of the record at the given address. -/
structure buffer where
  p : Option Nat
  size : Nat
  deriving DecidableEq, Repr

/-- The call `boost::asio::buffer(d)` on a `std::string`: Boost.Asio passes a null pointer for
an empty string. -/
def buffer.of_string (addr : Nat) (d : List byte) : buffer :=
  { p := if d.isEmpty then none else some addr, size := d.length }

/-- One call of `boost::asio::async_write` or `boost::asio::async_read` that the reactor has
not completed yet: the socket (of the record at address `s`), the buffer, the completion
condition and the handler. -/
structure async_op (σ : Type) where
  primitive : primitive
  s : Nat
  buffers : buffer
  condition : completion_condition
  handler : task_wrapped_with_connection σ

/-- A `boost::asio::ip::tcp::acceptor`. -/
structure acceptor_t where
  is_open : Bool
  port : Nat
  deriving DecidableEq, Repr

/-- The struct `tasks_processor::tcp_listener`. -/
structure tcp_listener (σ : Type) where
  acceptor_ : acceptor_t
  func_ : continuation σ
  new_c_ : connection_ptr

/-- The constructor of `tcp_listener`: the acceptor is opened on `port` (a failure to do so is
an exception, which ends `add_listener`), `func_` holds `task_unwrapped`, `new_c_` is null. -/
def tcp_listener.ctor {σ : Type} (port : Nat) (task_unwrapped : continuation σ) : tcp_listener σ :=
  { acceptor_ := { is_open := true, port := port }
    func_ := on_accpet_func_t task_unwrapped
    new_c_ := none }

/-- The struct `tasks_processor::handle_accept`; `listener` is a `listener_ptr`. -/
structure handle_accept (σ : Type) where
  listener : Option (tcp_listener σ)

/-- One call of `acceptor_.async_accept(s, handler)` that the reactor has not completed yet;
`s` is the address of the record whose socket is to receive the peer. -/
structure accept_op (σ : Type) where
  s : Nat
  handler : handle_accept σ

/-- The `boost::asio::io_service` behind `get_ios()`, together with the rest of the process:
the next free address, the operations that are outstanding, the events so far and the
user's state. -/
structure io_service (σ : Type) where
  next_addr : Nat
  accepts : List (accept_op σ)
  ops : List (async_op σ)
  trace : List Event
  user : σ

/-- An `io_service` on which nothing has been issued yet. -/
def io_service.idle {σ : Type} (next_addr : Nat) (user : σ) : io_service σ :=
  { next_addr := next_addr, accepts := [], ops := [], trace := [], user := user }

/-! ## Continuation wrapper -/

/-- The method `task_wrapped_with_connection::operator()(error, bytes_count)`. The result is the
wrapper after the call and the process after the call. -/
def task_wrapped_with_connection.call {σ : Type} (self : task_wrapped_with_connection σ)
    (error : error_code) (bytes_count : Nat) (ios : io_service σ) :
    Option (task_wrapped_with_connection σ × io_service σ) :=
  let lambda : Unit → Option (task_wrapped_with_connection σ × io_service σ) := fun _ =>
    match self.c_ with
    | none => none
    | some c =>
      let c := { c with data := resize c.data bytes_count }
      let r := self.task_unwrapped_ (some c) error ios.user
      some ({ self with c_ := r.1 },
            { ios with trace := ios.trace ++ [Event.invoke (some c) error], user := r.2 })
  let task := detail.make_task_wrapped lambda
  task ()

/-! ## Asynchronous I/O operations -/

/-- The function `async_write_data(c, f)`. The result is what is left in the caller's `c` and the
process with the issued operation. -/
def async_write_data {σ : Type} (c : connection_ptr) (f : continuation σ) (ios : io_service σ) :
    Option (connection_ptr × io_service σ) :=
  match c with
  | none => none
  | some r =>
    let s := r.addr
    let d := r.data
    let (handler, c) := task_wrapped_with_connection.ctor (some r) f
    some (c, { ios with ops := ios.ops ++ [{ primitive := primitive.async_write, s := s
                                             buffers := buffer.of_string r.addr d
                                             condition := completion_condition.transfer_all
                                             handler := handler }] })

/-- The function `async_read_data(c, f, at_least_bytes)`. -/
def async_read_data {σ : Type} (c : connection_ptr) (f : continuation σ) (at_least_bytes : Nat)
    (ios : io_service σ) : Option (connection_ptr × io_service σ) :=
  match c with
  | none => none
  | some r =>
    let r := { r with data := resize r.data at_least_bytes }
    let s := r.addr
    let d := r.data
    let p := if d.isEmpty then none else some r.addr
    let (handler, c) := task_wrapped_with_connection.ctor (some r) f
    some (c, { ios with ops := ios.ops ++ [{ primitive := primitive.async_read, s := s
                                             buffers := { p := p, size := d.length }
                                             condition := completion_condition.transfer_all
                                             handler := handler }] })

/-- The function `async_read_data_at_least(c, f, at_least_bytes, at_most)`. -/
def async_read_data_at_least {σ : Type} (c : connection_ptr) (f : continuation σ)
    (at_least_bytes at_most : Nat) (ios : io_service σ) :
    Option (connection_ptr × io_service σ) :=
  match c with
  | none => none
  | some r =>
    let r := { r with data := resize r.data at_most }
    let p := if at_most = 0 then none else some r.addr
    let s := r.addr
    let (handler, c) := task_wrapped_with_connection.ctor (some r) f
    some (c, { ios with ops := ios.ops ++ [{ primitive := primitive.async_read, s := s
                                             buffers := { p := p, size := at_most }
                                             condition :=
                                               completion_condition.transfer_at_least at_least_bytes
                                             handler := handler }] })

/-- What a buffer holds after the reactor has stored `received` at its start: the length of the
string does not change, and bytes that do not fit are not stored. -/
def store (d received : List byte) : List byte :=
  (received ++ d.drop received.length).take d.length

/-- The reactor completes `op` with `(error, bytes_transferred)`: a read has stored the
`bytes_transferred` bytes it `received` through the pointer of the buffer, a write has stored
nothing; then the handler is called. -/
def async_op.complete {σ : Type} (op : async_op σ) (error : error_code)
    (bytes_transferred : Nat) (received : List byte) (ios : io_service σ) :
    Option (task_wrapped_with_connection σ × io_service σ) :=
  let handler : task_wrapped_with_connection σ :=
    match op.primitive, op.buffers.p with
    | primitive.async_read, some _ =>
      { op.handler with
        c_ := op.handler.c_.map fun (c : connection_with_data) =>
          { c with data := store c.data (received.take bytes_transferred) } }
    | _, _ => op.handler
  handler.call error bytes_transferred ios

/-! ## Listener -/

/-- The function `tasks_processor::start_accepting_connection(listener)`. The result is what is
left in the caller's `listener` and the process afterwards.

`new_c_.reset(...)` releases the record that `new_c_` held before; on every path of this
header `new_c_` is null at that point. -/
def start_accepting_connection {σ : Type} (listener : Option (tcp_listener σ))
    (ios : io_service σ) : Option (Option (tcp_listener σ) × io_service σ) :=
  match listener with
  | none => none
  | some l =>
    if !l.acceptor_.is_open then
      some (some l, ios)
    else
      let l := { l with new_c_ := some (connection_with_data.ctor ios.next_addr) }
      let ios := { ios with next_addr := ios.next_addr + 1 }
      match l.new_c_ with
      | none => none
      | some c =>
        let s := c.addr
        some (none, { ios with accepts := ios.accepts ++ [{ s := s, handler := { listener := some l } }]
                               trace := ios.trace ++ [Event.async_accept s] })

/-- The method `tasks_processor::handle_accept::operator()(error)`. The result is the handler
after the call and the process after the call. -/
def handle_accept.call {σ : Type} (self : handle_accept σ) (error : error_code)
    (ios : io_service σ) : Option (handle_accept σ × io_service σ) :=
  match self.listener with
  | none => none
  | some l =>
    let (task, new_c_) := task_wrapped_with_connection.ctor l.new_c_ l.func_
    let l := { l with new_c_ := new_c_ }
    match start_accepting_connection (some l) ios with
    | none => none
    | some (listener, ios) =>
      match task.call error 0 ios with
      | none => none
      | some (_, ios) => some ({ listener := listener }, ios)

/-- The function `tasks_processor::add_listener(port_num, f)`. The local `listener` goes out of
scope at the end, which releases the listener if it was not handed to the reactor. -/
def add_listener {σ : Type} (port_num : Nat) (f : continuation σ) (ios : io_service σ) :
    Option (io_service σ) :=
  let listener := some (tcp_listener.ctor port_num f)
  match start_accepting_connection listener ios with
  | none => none
  | some (_, ios) => some ios

/-- What the reactor does to the record an accept was issued for, before it calls the
handler: on success the socket of the record is the accepted peer, an open socket. -/
def handle_accept.accepted {σ : Type} (self : handle_accept σ) (error : error_code) :
    handle_accept σ :=
  if error = 0 then
    { listener := self.listener.map fun (l : tcp_listener σ) =>
        { l with new_c_ := l.new_c_.map fun (c : connection_with_data) =>
            { c with socket := { c.socket with is_open := true } } } }
  else
    self

/-- The reactor completes the oldest outstanding accept with `error`: it calls the handler and
then destroys it, and with it the listener if the handler still owns one. There is nothing to
complete when no accept is outstanding. -/
def io_service.accept_completed {σ : Type} (ios : io_service σ) (error : error_code) :
    Option (io_service σ) :=
  match ios.accepts with
  | [] => none
  | op :: rest =>
    match (op.handler.accepted error).call error { ios with accepts := rest } with
    | none => none
    | some (_, ios) => some ios

/-- The accepting socket of every listener is closed; the accepts that are outstanding stay
with the reactor until it completes them. -/
def io_service.acceptor_closed {σ : Type} (ios : io_service σ) : io_service σ :=
  { ios with
    accepts := ios.accepts.map fun (op : accept_op σ) =>
      { op with
        handler := { listener := op.handler.listener.map fun (l : tcp_listener σ) =>
          { l with acceptor_ := { l.acceptor_ with is_open := false } } } } }

/-- The reactor completes one accept after the other, with the given errors. -/
def io_service.accepts_completed {σ : Type} (ios : io_service σ) :
    List error_code → Option (io_service σ)
  | [] => some ios
  | error :: errors =>
    match ios.accept_completed error with
    | none => none
    | some ios => ios.accepts_completed errors

/-- Whether some outstanding accept belongs to a listener whose accepting socket is open. -/
def io_service.acceptor_is_open {σ : Type} (ios : io_service σ) : Bool :=
  ios.accepts.any fun (op : accept_op σ) =>
    match op.handler.listener with
    | none => false
    | some l => l.acceptor_.is_open

/-! ## The example protocol -/

/-- What the example protocol does to the process: the lines written to `std::cerr`, and
whether an `assert` has ended the process. -/
structure authorizer_state where
  cerr : List String
  aborted : Bool
  deriving DecidableEq, Repr

/-- The function `authorizer::on_datasend(connection_ptr&& connection, error)`. Its parameter
is a reference to the caller's handle, which it does not move from. On an error it writes to
`std::cerr` and `assert(false)` ends the process, assertions being enabled; a null handle is
undefined behaviour and ends the process as well. -/
def authorizer.on_datasend (shutdown_answer close_answer : error_code) :
    continuation authorizer_state :=
  fun connection error s =>
    if error ≠ 0 then
      (connection,
       { cerr := s.cerr ++ ["authorizer.on_datasend: error during sending response: "
                              ++ toString error ++ "\n"]
         aborted := true })
    else
      match connection with
      | none => (none, { s with aborted := true })
      | some c => (some (c.shutdown shutdown_answer close_answer), s)

/-- The invocations of a user continuation among the events, oldest first. -/
def invocations : List Event → List (connection_ptr × error_code)
  | [] => []
  | Event.invoke c error :: rest => (c, error) :: invocations rest
  | Event.async_accept _ :: rest => invocations rest

/-- The accepts issued among the events, oldest first. -/
def issued_accepts : List Event → List Nat
  | [] => []
  | Event.async_accept s :: rest => s :: issued_accepts rest
  | Event.invoke _ _ :: rest => issued_accepts rest

/-! ## Inputs and observations used in the statements -/

/-- The record that `authorizer::on_datarecieve` hands to `async_write_data`: an open socket and
the two characters of "OK". -/
def authorizer.reply : connection_with_data :=
  { addr := 7, socket := { is_open := true, calls := [] }, data := [79, 75] }

/-- A process of the example protocol in which nothing has happened yet. -/
def authorizer.start : io_service authorizer_state :=
  io_service.idle 8 { cerr := [], aborted := false }

/-- A continuation whose parameter is a `connection_ptr&&`, which it does not move from, and
which counts how often it is invoked. -/
def counting : continuation Nat :=
  fun c _ s => (c, s + 1)

/-- The accept that is outstanding while a listener on `port` with continuation `f` waits for
a peer on the record at address `a`. -/
def armed {σ : Type} (port : Nat) (f : continuation σ) (a : Nat) : accept_op σ :=
  { s := a
    handler :=
      { listener := some { acceptor_ := { is_open := true, port := port }
                           func_ := on_accpet_func_t f
                           new_c_ := some (connection_with_data.ctor a) } } }

/-- The record staged at address `a` once its accept has completed with `error`. -/
def peer (a : Nat) (error : error_code) : connection_with_data :=
  { addr := a, socket := { is_open := decide (error = 0), calls := [] }, data := [] }

/-- The events of a listener whose outstanding accept is on address `a`, over the completions
`errors`. -/
def rearm_events (a : Nat) : List error_code → List Event
  | [] => []
  | error :: errors =>
    Event.async_accept (a + 1) :: Event.invoke (some (peer a error)) error
      :: rearm_events (a + 1) errors

/-- The user's state over the same completions. -/
def rearm_user {σ : Type} (f : continuation σ) (a : Nat) (s : σ) : List error_code → σ
  | [] => s
  | error :: errors => rearm_user f (a + 1) (f (some (peer a error)) error s).2 errors

/-! ## Properties -/

theorem length_resize (d : List byte) (n : Nat) : (resize d n).length = n := by
  simp [resize]
  omega

theorem resize_length (d : List byte) : resize d d.length = d := by
  simp [resize]

theorem take_resize (d : List byte) (n : Nat) :
    (resize d n).take (min n d.length) = d.take (min n d.length) := by
  unfold resize
  rw [List.take_append_of_le_length (by simp)]
  simp [List.take_take]

theorem length_store (d received : List byte) : (store d received).length = d.length := by
  simp [store]
  omega

theorem shutdown_closed (c : connection_with_data) (a b : error_code)
    (h : c.socket.is_open = false) : c.shutdown a b = c := by
  simp [connection_with_data.shutdown, h]

theorem shutdown_open (c : connection_with_data) (a b : error_code)
    (h : c.socket.is_open = true) :
    c.shutdown a b =
      { c with socket := { is_open := false
                           calls := c.socket.calls ++ [socket_call.shutdown_both, socket_call.close] } } := by
  simp [connection_with_data.shutdown, h, socket.shutdown, socket.close]

theorem call_some {σ : Type} (c : connection_with_data) (f : continuation σ)
    (error : error_code) (n : Nat) (ios : io_service σ) :
    (task_wrapped_with_connection.mk (some c) f).call error n ios
      = some ({ c_ := (f (some { c with data := resize c.data n }) error ios.user).1
                task_unwrapped_ := f },
              { ios with
                trace := ios.trace ++ [Event.invoke (some { c with data := resize c.data n }) error]
                user := (f (some { c with data := resize c.data n }) error ios.user).2 }) := by
  rfl

theorem invocations_append (t u : List Event) :
    invocations (t ++ u) = invocations t ++ invocations u := by
  induction t with
  | nil => rfl
  | cons ev t ih => cases ev <;> simp [invocations, ih]

theorem issued_accepts_append (t u : List Event) :
    issued_accepts (t ++ u) = issued_accepts t ++ issued_accepts u := by
  induction t with
  | nil => rfl
  | cons ev t ih => cases ev <;> simp [issued_accepts, ih]

/-- C5 (P7, idempotent shutdown). `connection_with_data::shutdown()` leaves the socket closed
and its result does not depend on what the socket's shutdown and close steps answer, so no
error is reported; it never touches the buffer; on a closed socket it changes nothing, in
particular it makes no call on the socket; a second `shutdown()`, or the destructor, after a
first one changes nothing, and over both the socket is closed once if it was open and not at
all otherwise. -/
theorem shutdown_idempotent (c : connection_with_data) (a b a' b' : error_code) :
    (c.shutdown a b).socket.is_open = false
    ∧ c.shutdown a b = c.shutdown 0 0
    ∧ (c.shutdown a b).data = c.data
    ∧ (c.socket.is_open = false → c.shutdown a b = c)
    ∧ (c.shutdown a b).shutdown a' b' = c.shutdown a b
    ∧ (c.shutdown a b).dtor a' b' = c.shutdown a b
    ∧ ((c.shutdown a b).shutdown a' b').socket.calls
        = c.socket.calls
            ++ (if c.socket.is_open then [socket_call.shutdown_both, socket_call.close] else []) := by
  cases h : c.socket.is_open
  · simp [connection_with_data.dtor, shutdown_closed c _ _ h, h]
  · simp [connection_with_data.dtor, shutdown_open c _ _ h, shutdown_closed]

/-- A closed socket with a history, on which `shutdown()` makes no further call. -/
theorem shutdown_idempotent_witness :
    (connection_with_data.mk 1 { is_open := false, calls := [socket_call.close] } [7]).shutdown 3 4
      = connection_with_data.mk 1 { is_open := false, calls := [socket_call.close] } [7] :=
  (shutdown_idempotent
    (connection_with_data.mk 1 { is_open := false, calls := [socket_call.close] } [7])
    3 4 5 6).2.2.2.1 rfl

/-- C1 (continuation wrapper). Invoking the wrapper of a connection record `c` with
`(error, n)` invokes the user continuation exactly once: the process afterwards is the one
before with one invocation event added and the user's state changed by one application of
the continuation. The continuation is given the record with its buffer resized to length `n`,
the first `min n (old length)` bytes unchanged, and the same `error`, whether `error` is an
error or not. -/
theorem wrapper_invokes_continuation_once {σ : Type} (c : connection_with_data)
    (f : continuation σ) (error : error_code) (n : Nat) (ios : io_service σ) :
    (task_wrapped_with_connection.mk (some c) f).call error n ios
      = some ({ c_ := (f (some { c with data := resize c.data n }) error ios.user).1
                task_unwrapped_ := f },
              { ios with
                trace := ios.trace ++ [Event.invoke (some { c with data := resize c.data n }) error]
                user := (f (some { c with data := resize c.data n }) error ios.user).2 })
    ∧ invocations (ios.trace ++ [Event.invoke (some { c with data := resize c.data n }) error])
        = invocations ios.trace ++ [(some { c with data := resize c.data n }, error)]
    ∧ (resize c.data n).length = n
    ∧ (resize c.data n).take (min n c.data.length) = c.data.take (min n c.data.length) :=
  ⟨call_some c f error n ios, invocations_append _ _, length_resize _ _, take_resize _ _⟩

theorem store_nil (received : List byte) : store [] received = [] := by
  simp [store]

theorem resize_zero (d : List byte) : resize d 0 = [] := by
  simp [resize]

/-- C2 (P3, write completeness). For a connection record `r` whose buffer has size `k`,
`async_write_data` issues exactly one operation: a write-all of the `k` bytes of the buffer of
`r`, whose handler holds `r`. When the reactor completes it with `(error, n)`, where `n = k`
whenever `error` is no error, the continuation is invoked with `error` and the buffer resized to
`n`: either there is no error and the buffer is the original one, of length `k`, or there is an
error; never no error together with a buffer shorter than `k`. -/
theorem write_completeness {σ : Type} (r : connection_with_data) (f : continuation σ)
    (ios ios2 : io_service σ) (error : error_code) (n : Nat) (received : List byte)
    (h : error = 0 → n = r.data.length) :
    ∃ op : async_op σ,
      async_write_data (some r) f ios = some (none, { ios with ops := ios.ops ++ [op] })
      ∧ op.primitive = primitive.async_write
      ∧ op.s = r.addr
      ∧ op.buffers = buffer.of_string r.addr r.data
      ∧ op.buffers.size = r.data.length
      ∧ op.condition = completion_condition.transfer_all
      ∧ op.handler.c_ = some r
      ∧ op.complete error n received ios2
          = some ({ c_ := (f (some { r with data := resize r.data n }) error ios2.user).1
                    task_unwrapped_ := f },
                  { ios2 with
                    trace := ios2.trace
                      ++ [Event.invoke (some { r with data := resize r.data n }) error]
                    user := (f (some { r with data := resize r.data n }) error ios2.user).2 })
      ∧ ((error = 0 ∧ resize r.data n = r.data ∧ (resize r.data n).length = r.data.length)
          ∨ error ≠ 0)
      ∧ ¬ (error = 0 ∧ (resize r.data n).length < r.data.length) := by
  refine ⟨_, rfl, rfl, rfl, rfl, rfl, rfl, rfl, rfl, ?_, ?_⟩
  · by_cases he : error = 0
    · left
      rw [h he]
      exact ⟨he, resize_length _, by rw [resize_length]⟩
    · exact Or.inr he
  · rintro ⟨he, hlt⟩
    rw [h he, resize_length] at hlt
    exact Nat.lt_irrefl _ hlt

/-- The reply "OK" of the example protocol, written completely. -/
theorem write_completeness_witness :
    ((0 : error_code) = 0 → 2 = authorizer.reply.data.length)
    ∧ ∃ op : async_op authorizer_state,
      async_write_data (some authorizer.reply) (authorizer.on_datasend 0 0) authorizer.start
        = some (none, { authorizer.start with ops := authorizer.start.ops ++ [op] })
      ∧ op.primitive = primitive.async_write
      ∧ op.s = authorizer.reply.addr
      ∧ op.buffers = buffer.of_string authorizer.reply.addr authorizer.reply.data
      ∧ op.buffers.size = authorizer.reply.data.length
      ∧ op.condition = completion_condition.transfer_all
      ∧ op.handler.c_ = some authorizer.reply
      ∧ op.complete 0 2 [] authorizer.start
          = some ({ c_ := (authorizer.on_datasend 0 0
                            (some { authorizer.reply with data := resize authorizer.reply.data 2 })
                            0 authorizer.start.user).1
                    task_unwrapped_ := authorizer.on_datasend 0 0 },
                  { authorizer.start with
                    trace := authorizer.start.trace
                      ++ [Event.invoke
                            (some { authorizer.reply with data := resize authorizer.reply.data 2 }) 0]
                    user := (authorizer.on_datasend 0 0
                              (some { authorizer.reply with data := resize authorizer.reply.data 2 })
                              0 authorizer.start.user).2 })
      ∧ (((0 : error_code) = 0 ∧ resize authorizer.reply.data 2 = authorizer.reply.data
            ∧ (resize authorizer.reply.data 2).length = authorizer.reply.data.length)
          ∨ (0 : error_code) ≠ 0)
      ∧ ¬ ((0 : error_code) = 0
            ∧ (resize authorizer.reply.data 2).length < authorizer.reply.data.length) :=
  ⟨fun _ => rfl,
   write_completeness authorizer.reply (authorizer.on_datasend 0 0) authorizer.start
     authorizer.start 0 2 [] (fun _ => rfl)⟩

/-- C3 (P1, exact read). For every `n`, zero included, and every previous buffer,
`async_read_data` resizes the buffer to `n` and issues exactly one operation: a read-all into
an `n`-byte buffer, with a null pointer when `n` is zero. When the reactor completes it with
`n` bytes and no error, the continuation is invoked with a buffer of length exactly `n` and no
error. -/
theorem exact_read {σ : Type} (r : connection_with_data) (f : continuation σ) (n : Nat)
    (ios ios2 : io_service σ) (received : List byte) :
    ∃ op : async_op σ,
      async_read_data (some r) f n ios = some (none, { ios with ops := ios.ops ++ [op] })
      ∧ op.primitive = primitive.async_read
      ∧ op.s = r.addr
      ∧ op.buffers = { p := if n = 0 then none else some r.addr, size := n }
      ∧ op.condition = completion_condition.transfer_all
      ∧ op.handler.c_ = some { r with data := resize r.data n }
      ∧ (resize r.data n).length = n
      ∧ ∃ c : connection_with_data,
          op.complete 0 n received ios2
            = some ({ c_ := (f (some c) 0 ios2.user).1, task_unwrapped_ := f },
                    { ios2 with
                      trace := ios2.trace ++ [Event.invoke (some c) 0]
                      user := (f (some c) 0 ios2.user).2 })
          ∧ c.addr = r.addr ∧ c.socket = r.socket ∧ c.data.length = n := by
  have hlen := length_resize r.data n
  have hp : (resize r.data n).isEmpty = decide (n = 0) := by
    cases n with
    | zero => simp [resize_zero]
    | succ m =>
      have : resize r.data (m + 1) ≠ [] := by
        intro h0
        rw [h0] at hlen
        simp at hlen
      simp [this]
  refine ⟨_, rfl, rfl, rfl, ?_, rfl, rfl, hlen,
    { r with data := resize (store (resize r.data n) (received.take n)) n }, ?_, rfl, rfl,
    length_resize _ _⟩
  · simp [hp, hlen]
  · by_cases hn : n = 0
    · subst hn
      simp [async_op.complete, task_wrapped_with_connection.ctor, hp, resize_zero, store_nil,
        call_some]
    · simp [async_op.complete, task_wrapped_with_connection.ctor, hp, hn, call_some]

/-- C4 (P2, bounded read). `async_read_data_at_least` resizes the buffer to `at_most` and issues
exactly one operation: a read with the completion condition `transfer_at_least(at_least_bytes)`
into an `at_most`-byte buffer, with a null pointer when `at_most` is zero. When the reactor
completes it with no error and a count `k` between `at_least_bytes` and `at_most`, the
continuation is invoked with no error and a buffer of length `k`, so at least `at_least_bytes`
and at most `at_most`; when `at_most` is zero the buffer given to the read is empty and so is
the buffer the continuation receives. -/
theorem bounded_read {σ : Type} (r : connection_with_data) (f : continuation σ)
    (at_least_bytes at_most k : Nat) (ios ios2 : io_service σ) (received : List byte)
    (hmin : at_least_bytes ≤ k) (hmax : k ≤ at_most) :
    ∃ op : async_op σ,
      async_read_data_at_least (some r) f at_least_bytes at_most ios
        = some (none, { ios with ops := ios.ops ++ [op] })
      ∧ op.primitive = primitive.async_read
      ∧ op.s = r.addr
      ∧ op.buffers = { p := if at_most = 0 then none else some r.addr, size := at_most }
      ∧ op.condition = completion_condition.transfer_at_least at_least_bytes
      ∧ op.handler.c_ = some { r with data := resize r.data at_most }
      ∧ (resize r.data at_most).length = at_most
      ∧ ∃ c : connection_with_data,
          op.complete 0 k received ios2
            = some ({ c_ := (f (some c) 0 ios2.user).1, task_unwrapped_ := f },
                    { ios2 with
                      trace := ios2.trace ++ [Event.invoke (some c) 0]
                      user := (f (some c) 0 ios2.user).2 })
          ∧ c.addr = r.addr ∧ c.socket = r.socket
          ∧ c.data.length = k
          ∧ at_least_bytes ≤ c.data.length ∧ c.data.length ≤ at_most
          ∧ (at_most = 0 → op.buffers = { p := none, size := 0 } ∧ c.data = []) := by
  have hk := length_resize (store (resize r.data at_most) (received.take k)) k
  refine ⟨_, rfl, rfl, rfl, rfl, rfl, rfl, length_resize _ _,
    { r with data := resize (store (resize r.data at_most) (received.take k)) k }, ?_, rfl, rfl,
    hk, ?_, ?_, ?_⟩
  · by_cases hz : at_most = 0
    · subst hz
      simp [async_op.complete, task_wrapped_with_connection.ctor, resize_zero, store_nil,
        call_some]
    · simp [async_op.complete, task_wrapped_with_connection.ctor, hz, call_some]
  · simpa [hk] using hmin
  · simpa [hk] using hmax
  · intro hz
    subst hz
    have hk0 : k = 0 := Nat.le_zero.mp hmax
    subst hk0
    simp [resize_zero]

/-- Scenario A of the specification: a read of at least 1 and at most 1024 bytes that
completes with the 9 bytes of "auth_name". -/
theorem bounded_read_witness :
    (1 ≤ 9 ∧ 9 ≤ 1024)
    ∧ ∃ op : async_op Nat,
      async_read_data_at_least (some (connection_with_data.ctor 0)) counting 1 1024
          (io_service.idle 1 0)
        = some (none, { io_service.idle 1 0 with ops := (io_service.idle 1 0).ops ++ [op] })
      ∧ op.primitive = primitive.async_read
      ∧ op.s = (connection_with_data.ctor 0).addr
      ∧ op.buffers
          = { p := if 1024 = 0 then none else some (connection_with_data.ctor 0).addr
              size := 1024 }
      ∧ op.condition = completion_condition.transfer_at_least 1
      ∧ op.handler.c_
          = some { connection_with_data.ctor 0 with
                   data := resize (connection_with_data.ctor 0).data 1024 }
      ∧ (resize (connection_with_data.ctor 0).data 1024).length = 1024
      ∧ ∃ c : connection_with_data,
          op.complete 0 9 [97, 117, 116, 104, 95, 110, 97, 109, 101] (io_service.idle 1 0)
            = some ({ c_ := (counting (some c) 0 (io_service.idle 1 0).user).1
                      task_unwrapped_ := counting },
                    { io_service.idle 1 0 with
                      trace := (io_service.idle 1 0).trace ++ [Event.invoke (some c) 0]
                      user := (counting (some c) 0 (io_service.idle 1 0).user).2 })
          ∧ c.addr = (connection_with_data.ctor 0).addr
          ∧ c.socket = (connection_with_data.ctor 0).socket
          ∧ c.data.length = 9
          ∧ 1 ≤ c.data.length ∧ c.data.length ≤ 1024
          ∧ (1024 = 0 → op.buffers = { p := none, size := 0 } ∧ c.data = []) :=
  ⟨⟨by decide, by decide⟩,
   bounded_read (connection_with_data.ctor 0) counting 1 1024 9 (io_service.idle 1 0)
     (io_service.idle 1 0) [97, 117, 116, 104, 95, 110, 97, 109, 101] (by decide) (by decide)⟩

/-- C10, as the claim states it, fails for `authorizer::on_datasend`, which takes a
`connection_ptr&&` and does not move from it: after the wrapper has been invoked its slot is
not empty, it still holds the record (with the socket shut down). -/
theorem wrapper_keeps_connection_counterexample :
    ((task_wrapped_with_connection.mk (some authorizer.reply) (authorizer.on_datasend 0 0)).call
        0 2 authorizer.start).map (fun p => p.1.c_)
      = some (some { addr := 7
                     socket := { is_open := false
                                 calls := [socket_call.shutdown_both, socket_call.close] }
                     data := [79, 75] })
    ∧ ((task_wrapped_with_connection.mk (some authorizer.reply)
          (authorizer.on_datasend 0 0)).call 0 2 authorizer.start).map (fun p => p.1.c_)
      ≠ some none := by
  constructor
  · rfl
  · decide

/-- C10 (P4, single ownership), amended. After the wrapper has been invoked its slot holds
exactly what the continuation left in the handle it was given: nothing when the continuation
takes the connection by value, as the listener's `on_accpet_func_t` does, and the record itself
when the continuation is `authorizer::on_datasend` and there is no error. After
`async_write_data`, `async_read_data` or `async_read_data_at_least` has been issued the caller's
handle is empty and the record is held by the handler of the one operation that was issued. -/
theorem ownership_across_wrapper {σ : Type} (r : connection_with_data) (f : continuation σ)
    (error : error_code) (n at_least_bytes at_most : Nat) (ios : io_service σ)
    (a b : error_code) (ios2 : io_service authorizer_state) :
    ((task_wrapped_with_connection.mk (some r) f).call error n ios).map (fun p => p.1.c_)
      = some (f (some { r with data := resize r.data n }) error ios.user).1
    ∧ ((task_wrapped_with_connection.mk (some r) (on_accpet_func_t f)).call error n ios).map
        (fun p => p.1.c_) = some none
    ∧ ((task_wrapped_with_connection.mk (some r) (authorizer.on_datasend a b)).call 0 n ios2).map
        (fun p => p.1.c_)
      = some (some ({ r with data := resize r.data n }.shutdown a b))
    ∧ (async_write_data (some r) f ios).map
        (fun p => (p.1, p.2.ops.map fun (op : async_op σ) => op.handler.c_))
      = some (none, ios.ops.map (fun (op : async_op σ) => op.handler.c_) ++ [some r])
    ∧ (async_read_data (some r) f n ios).map
        (fun p => (p.1, p.2.ops.map fun (op : async_op σ) => op.handler.c_))
      = some (none, ios.ops.map (fun (op : async_op σ) => op.handler.c_)
                      ++ [some { r with data := resize r.data n }])
    ∧ (async_read_data_at_least (some r) f at_least_bytes at_most ios).map
        (fun p => (p.1, p.2.ops.map fun (op : async_op σ) => op.handler.c_))
      = some (none, ios.ops.map (fun (op : async_op σ) => op.handler.c_)
                      ++ [some { r with data := resize r.data at_most }]) := by
  refine ⟨by simp [call_some], by simp [call_some, on_accpet_func_t], ?_, ?_, ?_, ?_⟩
  · simp [call_some, authorizer.on_datasend]
  · simp [async_write_data, task_wrapped_with_connection.ctor]
  · simp [async_read_data, task_wrapped_with_connection.ctor]
  · simp [async_read_data_at_least, task_wrapped_with_connection.ctor]

theorem add_listener_eq {σ : Type} (port : Nat) (f : continuation σ) (ios : io_service σ) :
    add_listener port f ios
      = some { ios with
               next_addr := ios.next_addr + 1
               accepts := ios.accepts ++ [armed port f ios.next_addr]
               trace := ios.trace ++ [Event.async_accept ios.next_addr] } := by
  rfl

theorem accept_completed_armed {σ : Type} (port : Nat) (f : continuation σ) (a : Nat)
    (error : error_code) (ios : io_service σ) (h : ios.accepts = [armed port f a]) :
    ios.accept_completed error
      = some { next_addr := ios.next_addr + 1
               accepts := [armed port f ios.next_addr]
               ops := ios.ops
               trace := ios.trace
                 ++ [Event.async_accept ios.next_addr, Event.invoke (some (peer a error)) error]
               user := (f (some (peer a error)) error ios.user).2 } := by
  by_cases he : error = 0
  · subst he
    simp [io_service.accept_completed, h, armed, handle_accept.accepted, handle_accept.call,
      task_wrapped_with_connection.ctor, start_accepting_connection, call_some, resize_zero,
      on_accpet_func_t, peer, connection_with_data.ctor]
  · simp [io_service.accept_completed, h, armed, handle_accept.accepted, handle_accept.call,
      task_wrapped_with_connection.ctor, start_accepting_connection, call_some, resize_zero,
      on_accpet_func_t, peer, connection_with_data.ctor, he]

theorem accepts_completed_armed {σ : Type} (port : Nat) (f : continuation σ)
    (errors : List error_code) :
    ∀ (a : Nat) (ios : io_service σ), ios.accepts = [armed port f a] → ios.next_addr = a + 1 →
      ios.accepts_completed errors
        = some { next_addr := a + errors.length + 1
                 accepts := [armed port f (a + errors.length)]
                 ops := ios.ops
                 trace := ios.trace ++ rearm_events a errors
                 user := rearm_user f a ios.user errors } := by
  induction errors with
  | nil =>
    intro a ios h hn
    cases ios
    simp_all [io_service.accepts_completed, rearm_events, rearm_user]
  | cons error errors ih =>
    intro a ios h hn
    simp only [io_service.accepts_completed, accept_completed_armed port f a error ios h]
    rw [ih (a + 1) _ (by simp [hn]) (by simp [hn])]
    have hlen : a + 1 + errors.length = a + (errors.length + 1) := by omega
    simp [rearm_events, rearm_user, hn, hlen]

theorem invocations_rearm_events (errors : List error_code) :
    ∀ (a i : Nat), (invocations (rearm_events a errors))[i]?
      = errors[i]?.map fun error => (some (peer (a + i) error), error) := by
  induction errors with
  | nil => intro a i; simp [rearm_events, invocations]
  | cons error errors ih =>
    intro a i
    cases i with
    | zero => simp [rearm_events, invocations]
    | succ i =>
      have hi : a + (i + 1) = a + 1 + i := by omega
      simp [rearm_events, invocations, ih, hi]

theorem length_invocations_rearm_events (errors : List error_code) :
    ∀ a : Nat, (invocations (rearm_events a errors)).length = errors.length := by
  induction errors with
  | nil => intro a; rfl
  | cons error errors ih => intro a; simp [rearm_events, invocations, ih]

theorem issued_accepts_rearm_events (errors : List error_code) :
    ∀ a : Nat, issued_accepts (rearm_events a errors)
      = (List.range errors.length).map fun i => a + 1 + i := by
  induction errors with
  | nil => intro a; rfl
  | cons error errors ih =>
    intro a
    simp [rearm_events, issued_accepts, ih, List.range_succ_eq_map, List.map_map,
      Function.comp_def]
    intro i _
    omega

theorem addr_invocations_rearm_events (errors : List error_code) :
    ∀ a : Nat, (invocations (rearm_events a errors)).map
        (fun p => p.1.map connection_with_data.addr)
      = (List.range errors.length).map fun i => some (a + i) := by
  induction errors with
  | nil => intro a; rfl
  | cons error errors ih =>
    intro a
    simp [rearm_events, invocations, ih, List.range_succ_eq_map, List.map_map,
      Function.comp_def, peer]
    intro i _
    omega

theorem rearm_user_eq_foldl {σ : Type} (f : continuation σ) (errors : List error_code) :
    ∀ (a : Nat) (s : σ), rearm_user f a s errors
      = (invocations (rearm_events a errors)).foldl (fun s p => (f p.1 p.2 s).2) s := by
  induction errors with
  | nil => intro a s; rfl
  | cons error errors ih => intro a s; simp [rearm_events, invocations, rearm_user, ih]

theorem nodup_some_add (a n : Nat) : ((List.range n).map fun i => some (a + i)).Nodup := by
  refine (List.nodup_range n).map ?_
  intro i j h
  simp at h
  exact h

theorem accepts_completed_add_listener {σ : Type} (port : Nat) (f : continuation σ) (a : Nat)
    (user : σ) (errors : List error_code) :
    (add_listener port f (io_service.idle a user)).bind
        (fun ios => ios.accepts_completed errors)
      = some { next_addr := a + errors.length + 1
               accepts := [armed port f (a + errors.length)]
               ops := []
               trace := Event.async_accept a :: rearm_events a errors
               user := rearm_user f a user errors } := by
  rw [add_listener_eq]
  simp only [Option.some_bind]
  rw [accepts_completed_armed port f errors a _ (by simp [io_service.idle])
    (by simp [io_service.idle])]
  simp [io_service.idle]

theorem accept_completed_closed {σ : Type} (port : Nat) (f : continuation σ) (a : Nat)
    (error : error_code) (ios : io_service σ) (h : ios.accepts = [armed port f a]) :
    ios.acceptor_closed.accept_completed error
      = some { ios with
               accepts := []
               trace := ios.trace ++ [Event.invoke (some (peer a error)) error]
               user := (f (some (peer a error)) error ios.user).2 } := by
  by_cases he : error = 0
  · subst he
    simp [io_service.accept_completed, io_service.acceptor_closed, h, armed,
      handle_accept.accepted, handle_accept.call, task_wrapped_with_connection.ctor,
      start_accepting_connection, call_some, resize_zero, on_accpet_func_t, peer,
      connection_with_data.ctor]
  · simp [io_service.accept_completed, io_service.acceptor_closed, h, armed,
      handle_accept.accepted, handle_accept.call, task_wrapped_with_connection.ctor,
      start_accepting_connection, call_some, resize_zero, on_accpet_func_t, peer,
      connection_with_data.ctor, he]

/-- C6 (listener invariant). In the state reached from `add_listener` by any number of accept
completions, whatever their errors, the accepting socket is open and exactly one accept is
outstanding. It is the accept of the listener itself, issued on the socket of the record that
the listener holds in `new_c_`; that record is the latest allocation, as the constructor made
it, and no continuation has been invoked with it. One accept has been issued by `add_listener`
and one more by every completion, with or without an error. -/
theorem listener_invariant {σ : Type} (port : Nat) (f : continuation σ) (a : Nat) (user : σ)
    (errors : List error_code) :
    ∃ ios : io_service σ,
      (add_listener port f (io_service.idle a user)).bind
          (fun ios => ios.accepts_completed errors) = some ios
      ∧ ios.acceptor_is_open = true
      ∧ ios.accepts.length = 1
      ∧ ios.accepts
          = [{ s := a + errors.length
               handler :=
                 { listener :=
                     some { acceptor_ := { is_open := true, port := port }
                            func_ := on_accpet_func_t f
                            new_c_ := some (connection_with_data.ctor (a + errors.length)) } } }]
      ∧ ios.next_addr = a + errors.length + 1
      ∧ (∀ p ∈ invocations ios.trace,
          p.1.map connection_with_data.addr ≠ some (a + errors.length))
      ∧ issued_accepts ios.trace = (List.range (errors.length + 1)).map fun i => a + i := by
  refine ⟨_, accepts_completed_add_listener port f a user errors, ?_, rfl, rfl, rfl, ?_, ?_⟩
  · simp [io_service.acceptor_is_open, armed]
  · intro p hp habs
    have hmem : p.1.map connection_with_data.addr
        ∈ (invocations (rearm_events a errors)).map
            (fun p => p.1.map connection_with_data.addr) :=
      List.mem_map_of_mem _ (by simpa [invocations] using hp)
    rw [addr_invocations_rearm_events, habs] at hmem
    simp at hmem
  · simp [issued_accepts, issued_accepts_rearm_events, List.range_succ_eq_map, List.map_map,
      Function.comp_def]
    intro i _
    omega

/-- C8 (P5, listener liveness). After `add_listener(port, f)` and `N` accept completions the
continuation has been invoked exactly `N` times: the `i`-th invocation was given the record
staged for the `i`-th accept, at address `a + i`, with an empty buffer, and the error of the
`i`-th completion; the `N` records are pairwise distinct; and the user's state is the result
of applying `f` once per completion, in order. -/
theorem listener_liveness {σ : Type} (port : Nat) (f : continuation σ) (a : Nat) (user : σ)
    (errors : List error_code) :
    ∃ ios : io_service σ,
      (add_listener port f (io_service.idle a user)).bind
          (fun ios => ios.accepts_completed errors) = some ios
      ∧ (invocations ios.trace).length = errors.length
      ∧ (∀ i : Nat, (invocations ios.trace)[i]?
          = errors[i]?.map fun error =>
              (some { addr := a + i
                      socket := { is_open := decide (error = 0), calls := [] }
                      data := [] }, error))
      ∧ issued_accepts ios.trace = (List.range (errors.length + 1)).map (fun i => a + i)
      ∧ ((invocations ios.trace).map fun p => p.1.map connection_with_data.addr).Nodup
      ∧ ios.user = (invocations ios.trace).foldl (fun s p => (f p.1 p.2 s).2) user := by
  refine ⟨_, accepts_completed_add_listener port f a user errors, ?_, ?_, ?_, ?_, ?_⟩
  · simp [invocations, length_invocations_rearm_events]
  · intro i
    simpa [invocations, peer] using invocations_rearm_events errors a i
  · simp [issued_accepts, issued_accepts_rearm_events, List.range_succ_eq_map, List.map_map,
      Function.comp_def]
    intro i _
    omega
  · simp only [invocations, addr_invocations_rearm_events]
    exact nodup_some_add a errors.length
  · simp only [invocations]
    exact rearm_user_eq_foldl f errors a user

/-- C9 (re-arm, then invoke). In the accept completion that follows any number of earlier ones
the process records two events, in this order: first the next `async_accept`, on a newly
allocated record, then the invocation of the continuation, and that invocation is given the
record whose accept has just completed, not the new one, which the listener keeps staged. -/
theorem rearm_before_invoke {σ : Type} (port : Nat) (f : continuation σ) (a : Nat) (user : σ)
    (errors : List error_code) (error : error_code) :
    ∃ ios ios2 : io_service σ,
      (add_listener port f (io_service.idle a user)).bind
          (fun ios => ios.accepts_completed errors) = some ios
      ∧ ios.accept_completed error = some ios2
      ∧ ios.acceptor_is_open = true
      ∧ ios.accepts.map (fun op => op.s) = [a + errors.length]
      ∧ ios2.trace
          = ios.trace
              ++ [Event.async_accept (a + errors.length + 1),
                  Event.invoke (some { addr := a + errors.length
                                       socket := { is_open := decide (error = 0), calls := [] }
                                       data := [] }) error]
      ∧ ios2.accepts.map (fun op => (op.s, op.handler.listener.bind fun l => l.new_c_))
          = [(a + errors.length + 1,
              some (connection_with_data.ctor (a + errors.length + 1)))] := by
  refine ⟨_, _, accepts_completed_add_listener port f a user errors,
    accept_completed_armed port f (a + errors.length) error _ rfl, ?_, ?_, ?_, ?_⟩
  · simp [io_service.acceptor_is_open, armed]
  · simp [armed]
  · simp [peer]
  · simp [armed]

/-- C7, as the claim states it, fails: when the accepting socket is closed while an accept is
outstanding, the completion of that accept (here with error 125, the operation was cancelled)
still invokes the stored continuation once. -/
theorem invoked_after_close_counterexample :
    (add_listener 65001 counting (io_service.idle 0 0)).map
        (fun ios => (ios.acceptor_closed.acceptor_is_open, invocations ios.trace, ios.user))
      = some (false, [], 0)
    ∧ ((add_listener 65001 counting (io_service.idle 0 0)).bind fun ios =>
        ios.acceptor_closed.accept_completed 125).map
          (fun ios => (invocations ios.trace, ios.user))
      = some ([(some (connection_with_data.ctor 0), 125)], 1) := by
  constructor <;> rfl

/-- C7 (P6, listener termination), amended. `start_accepting_connection` on a listener whose
accepting socket is closed returns at once: the listener stays with the caller and the process
is unchanged, so no record is allocated and no accept is issued. When the accepting socket is
closed after any number of completions, the completion of the accept that was outstanding
issues no accept and allocates nothing, and invokes the stored continuation exactly once, with
the staged record and the error of that completion; afterwards no accept is outstanding, so
no later completion exists and the continuation is not invoked again. -/
theorem listener_termination {σ : Type} (port : Nat) (f : continuation σ) (a : Nat) (user : σ)
    (errors : List error_code) (error error2 : error_code) (l : tcp_listener σ)
    (w : io_service σ) :
    start_accepting_connection
        (some { l with acceptor_ := { l.acceptor_ with is_open := false } }) w
      = some (some { l with acceptor_ := { l.acceptor_ with is_open := false } }, w)
    ∧ ∃ ios ios2 : io_service σ,
      (add_listener port f (io_service.idle a user)).bind
          (fun ios => ios.accepts_completed errors) = some ios
      ∧ ios.acceptor_closed.acceptor_is_open = false
      ∧ ios.acceptor_closed.accept_completed error = some ios2
      ∧ ios2.accepts = []
      ∧ ios2.next_addr = ios.next_addr
      ∧ issued_accepts ios2.trace = issued_accepts ios.trace
      ∧ invocations ios2.trace
          = invocations ios.trace
              ++ [(some { addr := a + errors.length
                          socket := { is_open := decide (error = 0), calls := [] }
                          data := [] }, error)]
      ∧ ios2.user
          = (f (some { addr := a + errors.length
                       socket := { is_open := decide (error = 0), calls := [] }
                       data := [] }) error ios.user).2
      ∧ ios2.accept_completed error2 = none := by
  refine ⟨by simp [start_accepting_connection], _, _,
    accepts_completed_add_listener port f a user errors,
    ?_, accept_completed_closed port f (a + errors.length) error _ rfl, rfl, rfl, ?_, ?_, ?_, rfl⟩
  · simp [io_service.acceptor_is_open, io_service.acceptor_closed, armed]
  · simp [issued_accepts_append, issued_accepts]
  · simp [invocations_append, invocations, peer]
  · simp [peer]

end NetworkCommunication
